import Mathlib

/-!
Shallow embedding of `ard_media_downloader.py` (class `ArdMediathekDownloader`).

Network effects are abstracted as oracle parameters:
  * `sizeOf : String → Int` stands for `get_size_of_video` (HEAD request,
    `Content-Length` header, already converted by `int(...)`);
  * `fetch : String → String` stands for `requests.get(url).text`;
  * a `parse` parameter stands for `r.json()`.
Strings handled character-wise are modelled as `List Char` (`String.data`);
Python `int` is `Int`.  The URL-validation regex of `validate_url` is embedded
literally as a regular-expression value and decided by Brzozowski derivatives,
with Python's `$` (which also matches just before a single trailing newline)
and `re.match`/`group(0)` semantics reproduced explicitly; character classes
are read in their ASCII meaning.
-/

namespace Ard

/-- Error outcomes of the embedded methods, one constructor per distinct
`raise` site (plus the two crashes Python itself would raise). -/
inductive Err where
  /-- `validate_url`: `ValueError("The given URL is not valid.")`. -/
  | invalidInput
  /-- `get_video_url`: `RuntimeError("The document id could not be found.")`. -/
  | docIdNotFound
  /-- `_get_media_json_by_document_id`: non-JSON content type. -/
  | protocolError
  /-- `r.json()` fails to decode the body. -/
  | jsonDecodeError
  /-- `_get_video_by_quality`: quality key absent; carries `medias.keys()`. -/
  | qualityNotFound (available : List Int)
  /-- `keys[0]` on an empty `keys` list (Python `IndexError`). -/
  | indexError
  /-- `fix_url` applied to `None` (Python `AttributeError`). -/
  | typeError
  /-- `get_subtitles`: `RuntimeError("Video does not contain subtitles")`. -/
  | noSubtitles
  deriving DecidableEq, Repr

/-! ### A small regular-expression engine (Brzozowski derivatives)

Used to give meaning to the regex literal inside `validate_url`. -/

/-- Regular expressions over `Char`, with character classes given by a
Boolean predicate. -/
inductive Regex where
  | fail
  | eps
  | cls (p : Char → Bool)
  | cat (r₁ r₂ : Regex)
  | alt (r₁ r₂ : Regex)
  | star (r : Regex)

namespace Regex

/-- Concatenation with on-the-fly simplification (language-preserving). -/
def mkCat : Regex → Regex → Regex
  | fail, _ => fail
  | _, fail => fail
  | eps, r => r
  | r, eps => r
  | r₁, r₂ => cat r₁ r₂

/-- Alternation with on-the-fly simplification (language-preserving). -/
def mkAlt : Regex → Regex → Regex
  | fail, r => r
  | r, fail => r
  | r₁, r₂ => alt r₁ r₂

/-- Does the regex accept the empty string? -/
def nullable : Regex → Bool
  | fail => false
  | eps => true
  | cls _ => false
  | cat r₁ r₂ => nullable r₁ && nullable r₂
  | alt r₁ r₂ => nullable r₁ || nullable r₂
  | star _ => true

/-- Brzozowski derivative with respect to one character. -/
def deriv : Regex → Char → Regex
  | fail, _ => fail
  | eps, _ => fail
  | cls p, c => if p c then eps else fail
  | cat r₁ r₂, c =>
      if nullable r₁ then mkAlt (mkCat (deriv r₁ c) r₂) (deriv r₂ c)
      else mkCat (deriv r₁ c) r₂
  | alt r₁ r₂, c => mkAlt (deriv r₁ c) (deriv r₂ c)
  | star r, c => mkCat (deriv r c) (star r)

/-- Whole-list acceptance. -/
def matchesList (r : Regex) (l : List Char) : Bool :=
  nullable (l.foldl deriv r)

/-- A literal character. -/
def chr (c : Char) : Regex := cls (fun x => x == c)

/-- A literal character under `re.IGNORECASE` (argument given lowercase). -/
def ichar (c : Char) : Regex := cls (fun x => x.toLower == c)

/-- A literal string under `re.IGNORECASE`. -/
def istr (s : String) : Regex := s.data.foldr (fun c r => cat (ichar c) r) eps

/-- `r?` -/
def ropt (r : Regex) : Regex := alt eps r

/-- `r+` -/
def rplus (r : Regex) : Regex := cat r (star r)

/-- `r` exactly `n` times. -/
def rpow (r : Regex) : Nat → Regex
  | 0 => eps
  | n + 1 => cat r (rpow r n)

/-- `r` at most `n` times. -/
def rupTo (r : Regex) : Nat → Regex
  | 0 => eps
  | n + 1 => alt eps (cat r (rupTo r n))

/-- Python `r{m,n}`. -/
def rbetween (r : Regex) (m n : Nat) : Regex := cat (rpow r m) (rupTo r (n - m))

/-- Python `r{m,}`. -/
def ratLeast (r : Regex) (m : Nat) : Regex := cat (rpow r m) (star r)

end Regex

open Regex

/-- `[A-Z0-9]` under `re.IGNORECASE` (ASCII reading). -/
def upperAlnum : Char → Bool := fun c => c.isAlpha || c.isDigit

/-- `[A-Z0-9-]` under `re.IGNORECASE` (ASCII reading). -/
def alnumDash : Char → Bool := fun c => c.isAlpha || c.isDigit || c == '-'

/-- `[A-Z]` under `re.IGNORECASE` (ASCII reading). -/
def alphaCls : Char → Bool := fun c => c.isAlpha

/-- `\d` (ASCII reading). -/
def digitCls : Char → Bool := fun c => c.isDigit

/-- `\S` (ASCII reading: the complement of Python `\s`). -/
def nonSpace : Char → Bool := fun c =>
  !(c == ' ' || c == '\t' || c == '\n' || c == '\r' || c == '\x0b' || c == '\x0c')

/-- `[A-Z0-9](?:[A-Z0-9-]{0,61}[A-Z0-9])?` — one domain label. -/
def labelRe : Regex :=
  .cat (.cls upperAlnum) (ropt (.cat (rupTo (.cls alnumDash) 61) (.cls upperAlnum)))

/-- `(?:label\.)+(?:[A-Z]{2,6}\.?|[A-Z0-9-]{2,}\.?)` — the domain branch. -/
def domainRe : Regex :=
  .cat (rplus (.cat labelRe (chr '.')))
       (.alt (.cat (rbetween (.cls alphaCls) 2 6) (ropt (chr '.')))
             (.cat (ratLeast (.cls alnumDash) 2) (ropt (chr '.'))))

/-- `\d{1,3}\.\d{1,3}\.\d{1,3}\.\d{1,3}` — the IP branch. -/
def ipRe : Regex :=
  .cat (rbetween (.cls digitCls) 1 3)
    (.cat (chr '.') (.cat (rbetween (.cls digitCls) 1 3)
      (.cat (chr '.') (.cat (rbetween (.cls digitCls) 1 3)
        (.cat (chr '.') (rbetween (.cls digitCls) 1 3))))))

/-- `(?::\d+)?` — the optional port. -/
def portRe : Regex := ropt (.cat (chr ':') (rplus (.cls digitCls)))

/-- `(?:/?|[/?]\S+)` — the optional path/query tail. -/
def tailRe : Regex :=
  .alt (ropt (chr '/'))
       (.cat (.cls (fun c => c == '/' || c == '?')) (rplus (.cls nonSpace)))

/-- The full regex of `validate_url`, between the `^` and `$` anchors:
`(?:http)s?://(?:domain|ip)(?::\d+)?(?:/?|[/?]\S+)`. -/
def urlRegex : Regex :=
  .cat (istr "http")
    (.cat (ropt (ichar 's'))
      (.cat (istr "://")
        (.cat (.alt domainRe ipRe) (.cat portRe tailRe))))

/-- Acceptance by the regex body of `validate_url`. -/
def coreMatch (l : List Char) : Bool := matchesList urlRegex l

/-- `re.match(regex, url)` followed by `.group(0)`.  The regex is anchored at
both ends; since no atom of it can match a newline, Python's `$` makes the
matched text either the whole string or, when the string ends in one final
newline, the string without that newline. -/
def pyMatchGroup0 (s : List Char) : Option (List Char) :=
  if coreMatch s then some s
  else if s.getLast? = some '\n' ∧ coreMatch s.dropLast then some s.dropLast
  else none

/-- `validate_url`: returns `.group(0)` of the match, or raises
`ValueError` (the bare `except:` turns the `None.group` failure into the
same `ValueError`). -/
def validate_url (url : List Char) : Except Err (List Char) :=
  match pyMatchGroup0 url with
  | some m => .ok m
  | none => .error .invalidInput

/-- `fix_url`: prefix `"http:"` unless the URL already starts with
`"http:"` or `"https:"`. -/
def fix_url (url : List Char) : List Char :=
  if ¬ ("http:".data.isPrefixOf url) ∧ ¬ ("https:".data.isPrefixOf url) then
    "http:".data ++ url
  else url

/-! ### The media descriptor and the quality grouping -/

/-- The value of a `'_stream'` key: a single URL string or a list of URL
strings. -/
inductive StreamEntry where
  | str (url : String)
  | list (urls : List String)
  deriving DecidableEq, Repr

/-- One element of a `'_mediaStreamArray'`. -/
structure Stream where
  _stream : StreamEntry
  deriving DecidableEq, Repr

/-- One element of a `'_mediaArray'`. -/
structure Medium where
  _mediaStreamArray : List Stream
  deriving DecidableEq, Repr

/-- Python's `"," in s` for a string: substring (here: character) search. -/
def strHasComma (s : String) : Bool := s.data.contains ','

/-- `videos_by_size` is a Python dict: an insertion-ordered association
list whose keys are distinct by construction. -/
abbrev Dict := List (Int × String)

/-- `videos_by_size[k] = v`: update in place if the key exists, else append. -/
def dinsert (d : Dict) (k : Int) (v : String) : Dict :=
  if (List.any d (fun p => p.1 == k)) then
    List.map (fun p => if p.1 == k then (k, v) else p) d
  else List.append d [(k, v)]

/-- `videos_by_size.get(k)`. -/
def dget (d : Dict) (k : Int) : Option String :=
  (List.find? (fun p => p.1 == k) d).map (fun p => p.2)

/-- The keys of the dict, in insertion order. -/
def dkeys (d : Dict) : List Int := List.map (fun p => p.1) d

/-- The body of the double loop of `_get_all_stream_urls_grouped_by_quality`
for one `stream['_stream']` value.  A string entry containing a comma is
skipped; a list entry is skipped whole when `","` is one of its elements
(Python `in` on a list tests element equality), and otherwise each element
containing a comma is skipped individually. -/
def processEntry (sizeOf : String → Int) (d : Dict) : StreamEntry → Dict
  | .str u => if strHasComma u then d else dinsert d (sizeOf u) u
  | .list us =>
      if List.any us (fun u => u == ",") then d
      else List.foldl
        (fun d u => if strHasComma u then d else dinsert d (sizeOf u) u) d us

/-- The `videos_by_size` dict after the double loop over
`medias[i]['_mediaStreamArray'][j]['_stream']`. -/
def buildDict (sizeOf : String → Int) (medias : List Medium) : Dict :=
  List.foldl
    (fun d medium =>
      List.foldl (fun d stream => processEntry sizeOf d stream._stream)
        d medium._mediaStreamArray)
    [] medias

/-- The URLs passed to `get_size_of_video` by the double loop of
`_get_all_stream_urls_grouped_by_quality`, in program order: exactly the
entries that survive the comma checks. -/
def measuredUrls (medias : List Medium) : List String :=
  List.foldl
    (fun acc medium =>
      List.foldl
        (fun acc stream =>
          match stream._stream with
          | .str u => if strHasComma u then acc else acc ++ [u]
          | .list us =>
              if List.any us (fun u => u == ",") then acc
              else List.foldl
                (fun acc u => if strHasComma u then acc else acc ++ [u]) acc us)
        acc medium._mediaStreamArray)
    [] medias

/-- `keys = sorted(k for k in videos_by_size.keys() if k > 0)`, then
`keys = keys[-3:]` when more than three remain. -/
def keptKeys (sizeOf : String → Int) (medias : List Medium) : List Int :=
  let keys := List.insertionSort (fun a b => a ≤ b)
    (List.filter (fun k => 0 < k) (dkeys (buildDict sizeOf medias)))
  if keys.length > 3 then keys.drop (keys.length - 3) else keys

/-- `_get_all_stream_urls_grouped_by_quality`.  Returns the dict
`{1: videos_by_size.get(keys[0]), 2: videos_by_size.get(keys[len(keys) // 2]),
3: videos_by_size.get(keys[-1])}`; on an empty `keys` list Python raises
`IndexError` at `keys[0]`. -/
def _get_all_stream_urls_grouped_by_quality (sizeOf : String → Int)
    (medias : List Medium) : Except Err (List (Int × Option String)) :=
  let d := buildDict sizeOf medias
  match keptKeys sizeOf medias with
  | [] => .error .indexError
  | k0 :: ks =>
      .ok [(1, dget d k0),
           (2, dget d ((k0 :: ks).get
                 ⟨(k0 :: ks).length / 2,
                  Nat.div_lt_self (Nat.succ_pos ks.length) Nat.one_lt_two⟩)),
           (3, dget d ((k0 :: ks).getLast (List.cons_ne_nil k0 ks)))]

/-- `_get_video_by_quality` for a requested `self.quality`.  Looks the
quality up among the keys of the tier dict; a missing key raises
`RuntimeError` carrying `medias.keys()`.  A `None` tier value would crash
inside `fix_url` (modelled as `Err.typeError`; it never happens). -/
def _get_video_by_quality (quality : Int) (sizeOf : String → Int)
    (medias : List Medium) : Except Err (List Char) :=
  match _get_all_stream_urls_grouped_by_quality sizeOf medias with
  | .error e => .error e
  | .ok tiers =>
      match List.lookup quality tiers with
      | some (some u) => .ok (fix_url u.data)
      | some none => .error .typeError
      | none => .error (.qualityNotFound (List.map (fun p => p.1) tiers))

/-! ### The media-description request -/

/-- Python's substring test `pat in s`, on character lists: some suffix of
`s` starts with `pat`. -/
def listIsInfixOf (pat : List Char) : List Char → Bool
  | [] => pat.isEmpty
  | c :: rest => pat.isPrefixOf (c :: rest) || listIsInfixOf pat rest

/-- An HTTP response as far as `_get_media_json_by_document_id` inspects
it: the `content-type` header and the raw body. -/
structure HttpResponse where
  contentType : String
  body : String

/-- `_get_media_json_by_document_id`, with JSON decoding abstracted as a
`parse` oracle (for `r.json()`).  The content-type test is Python's
`'application/json' in r.headers.get('content-type')`: substring search. -/
def _get_media_json_by_document_id {J : Type} (parse : String → Option J)
    (r : HttpResponse) : Except Err J :=
  if listIsInfixOf "application/json".data r.contentType.data then
    match parse r.body with
    | some j => .ok j
    | none => .error .jsonDecodeError
  else .error .protocolError

/-! ### Subtitles -/

/-- The index of the last occurrence of `c` in `l`, or `-1` (Python
`str.rfind`). -/
def rfind (l : List Char) (c : Char) : Int :=
  match List.getLast? (List.filter (fun p => p.2 == c) l.enum) with
  | some p => Int.ofNat p.1
  | none => -1

/-- `os.path.splitext(p)[0]` for POSIX paths: cut at the last dot of the
last path component, unless every character of that component before the
dot is itself a dot (CPython `genericpath._splitext`). -/
def splitextStem (p : List Char) : List Char :=
  let sepIndex := rfind p '/'
  let dotIndex := rfind p '.'
  if dotIndex > sepIndex then
    let si := (sepIndex + 1).toNat
    if List.any (List.take (dotIndex.toNat - si) (List.drop si p))
        (fun ch => ch != '.') then
      List.take dotIndex.toNat p
    else p
  else p

/-- The fields of `ArdMediathekDownloader` that `get_subtitles` reads:
`self.subtitle_url` (set only when the descriptor had `'_subtitleUrl'`)
and `self.filename`. -/
structure SubtitleState where
  subtitle_url : Option String
  filename : String
  deriving DecidableEq, Repr

/-- `get_subtitles`, with `requests.get(url).text` abstracted as `fetch`.
Python's `if not self.subtitle_url` is truthiness: it raises both when the
field is `None` and when it is the empty string.  On success the result is
the pair (path written, text written): the text is written verbatim to
`os.path.splitext(self.filename)[0] + '.srt'`. -/
def get_subtitles (fetch : String → String) (st : SubtitleState) :
    Except Err (List Char × String) :=
  match st.subtitle_url with
  | none => .error .noSubtitles
  | some u =>
      if u = "" then .error .noSubtitles
      else .ok (splitextStem st.filename.data ++ ".srt".data, fetch u)

/-! ### The constructor -/

/-- The state set up by `ArdMediathekDownloader.__init__`. -/
structure ArdMediathekDownloader where
  url : List Char
  subtitle_url : Option String
  _filename : Option String
  default_filename : String
  _derive_filename : Bool
  _quality : Int
  deriving DecidableEq, Repr

/-- `__init__(self, url)`: validates the URL (propagating `ValueError`)
and initialises every field exactly as the constructor body does. -/
def init (url : List Char) : Except Err ArdMediathekDownloader :=
  match validate_url url with
  | .error e => .error e
  | .ok u => .ok
      { url := u
        subtitle_url := none
        _filename := none
        default_filename := "video.mp4"
        _derive_filename := false
        _quality := 3 }

/-- The `quality` property getter: returns `self._quality`. -/
def quality (self : ArdMediathekDownloader) : Int := self._quality

/-! ### Concrete media descriptors used as test inputs -/

/-- Size oracle for a descriptor with stream sizes 300 and 700. -/
def sizeOfTwo : String → Int := fun u =>
  if u = "u300" then 300 else if u = "u700" then 700 else 0

/-- A media descriptor yielding exactly the two sizes 300 and 700. -/
def mediasTwo : List Medium := [⟨[⟨.str "u300"⟩, ⟨.str "u700"⟩]⟩]

/-- Size oracle for a descriptor with stream sizes 100, 500, 2000, 9000. -/
def sizeOfFour : String → Int := fun u =>
  if u = "u100" then 100 else if u = "u500" then 500
  else if u = "u2000" then 2000 else if u = "u9000" then 9000 else 0

/-- A media descriptor yielding the four sizes 100, 500, 2000, 9000. -/
def mediasFour : List Medium :=
  [⟨[⟨.str "u100"⟩, ⟨.str "u500"⟩, ⟨.str "u2000"⟩, ⟨.str "u9000"⟩]⟩]

/-- Size oracle for the quality-5 request scenario. -/
def sizeOfFive : String → Int := fun u =>
  if u = "v100" then 100 else if u = "v500" then 500
  else if u = "v2000" then 2000 else 0

/-- A media descriptor for the quality-5 request scenario. -/
def mediasFive : List Medium :=
  [⟨[⟨.str "v100"⟩, ⟨.str "v500"⟩, ⟨.str "v2000"⟩]⟩]

/-- Size oracle for a descriptor mixing well-formed and comma sentinels. -/
def sizeOfComma : String → Int := fun u =>
  if u = "http://ok.de/v.mp4" then 7 else if u = "u2" then 9 else 0

/-- A media descriptor whose entries include comma sentinels in both the
string and the list-element form. -/
def mediasComma : List Medium :=
  [⟨[⟨.str "a,b"⟩, ⟨.str "http://ok.de/v.mp4"⟩,
     ⟨.list ["c,d", "u2"]⟩, ⟨.list [","]⟩]⟩]

/-- Size oracle for a one-stream descriptor. -/
def sizeOfOne : String → Int := fun _ => 42

/-- A media descriptor with a single stream. -/
def mediasOne : List Medium := [⟨[⟨.str "u"⟩]⟩]

/-! ### Helper lemmas -/

/-- Every entry of `dinsert d k v` is an old entry or the inserted pair. -/
theorem mem_dinsert {d : Dict} {k : Int} {v : String} {p : Int × String}
    (hp : p ∈ dinsert d k v) : p ∈ d ∨ p = (k, v) := by
  unfold dinsert at hp
  split at hp
  · rcases List.mem_map.mp hp with ⟨q, hq, hqp⟩
    by_cases hk : q.1 == k
    · right; rw [if_pos hk] at hqp; exact hqp.symm
    · left; rw [if_neg hk] at hqp; exact hqp ▸ hq
  · rcases List.mem_append.mp hp with hd | hv
    · exact Or.inl hd
    · right; simpa using hv

/-- One conditional insertion step preserves comma-freeness of the dict. -/
theorem step_comma_free {sizeOf : String → Int} {d : Dict} {u : String}
    (hd : ∀ p ∈ d, strHasComma p.2 = false) :
    ∀ p ∈ (if strHasComma u then d else dinsert d (sizeOf u) u),
      strHasComma p.2 = false := by
  intro p hp
  by_cases hc : strHasComma u
  · rw [if_pos hc] at hp; exact hd p hp
  · rw [if_neg hc] at hp
    rcases mem_dinsert hp with h | h
    · exact hd p h
    · rw [h]; simpa using hc

/-- The inner fold over a list entry preserves comma-freeness. -/
theorem foldl_insert_comma_free (sizeOf : String → Int) (us : List String) :
    ∀ d : Dict, (∀ p ∈ d, strHasComma p.2 = false) →
    ∀ p ∈ List.foldl
      (fun d u => if strHasComma u then d else dinsert d (sizeOf u) u) d us,
    strHasComma p.2 = false := by
  induction us with
  | nil => intro d hd; simpa using hd
  | cons u us ih =>
      intro d hd
      simp only [List.foldl_cons]
      exact ih _ (step_comma_free hd)

/-- `processEntry` only ever inserts comma-free URLs. -/
theorem processEntry_comma_free {sizeOf : String → Int} {d : Dict}
    {e : StreamEntry} (hd : ∀ p ∈ d, strHasComma p.2 = false) :
    ∀ p ∈ processEntry sizeOf d e, strHasComma p.2 = false := by
  cases e with
  | str u =>
      simp only [processEntry]
      exact step_comma_free hd
  | list us =>
      simp only [processEntry]
      split
      · exact hd
      · exact foldl_insert_comma_free sizeOf us d hd

/-- Every entry of `videos_by_size` has a comma-free URL. -/
theorem buildDict_comma_free (sizeOf : String → Int) (medias : List Medium) :
    ∀ p ∈ buildDict sizeOf medias, strHasComma p.2 = false := by
  unfold buildDict
  suffices h : ∀ (ms : List Medium) (d : Dict),
      (∀ p ∈ d, strHasComma p.2 = false) →
      ∀ p ∈ List.foldl
        (fun d medium =>
          List.foldl (fun d stream => processEntry sizeOf d stream._stream)
            d medium._mediaStreamArray) d ms,
      strHasComma p.2 = false by
    exact h medias [] (by simp)
  intro ms
  induction ms with
  | nil => intro d hd; simpa using hd
  | cons m ms ih =>
      intro d hd
      simp only [List.foldl_cons]
      refine ih _ ?_
      clear * - hd
      induction m._mediaStreamArray generalizing d with
      | nil => simpa using hd
      | cons st sts ih2 =>
          simp only [List.foldl_cons]
          exact ih2 _ (processEntry_comma_free hd)

/-- One conditional append step preserves comma-freeness of the URL list. -/
theorem stepAcc_comma_free {acc : List String} {v : String}
    (hacc : ∀ w ∈ acc, strHasComma w = false) :
    ∀ u ∈ (if strHasComma v then acc else acc ++ [v]),
      strHasComma u = false := by
  intro u hu
  by_cases hc : strHasComma v
  · rw [if_pos hc] at hu; exact hacc u hu
  · rw [if_neg hc] at hu
    rcases List.mem_append.mp hu with h | h
    · exact hacc u h
    · simp only [List.mem_singleton] at h
      rw [h]; simpa using hc

/-- The inner fold of `measuredUrls` over a list entry preserves
comma-freeness. -/
theorem foldlAcc_comma_free (us : List String) :
    ∀ acc : List String, (∀ w ∈ acc, strHasComma w = false) →
    ∀ u ∈ List.foldl
      (fun acc u => if strHasComma u then acc else acc ++ [u]) acc us,
    strHasComma u = false := by
  induction us with
  | nil => intro acc hacc; simpa using hacc
  | cons u us ih =>
      intro acc hacc
      simp only [List.foldl_cons]
      exact ih _ (stepAcc_comma_free hacc)

/-- The fold of `measuredUrls` over one stream list preserves
comma-freeness. -/
theorem streamsAcc_comma_free (sts : List Stream) :
    ∀ acc : List String, (∀ w ∈ acc, strHasComma w = false) →
    ∀ u ∈ List.foldl
      (fun acc stream =>
        match stream._stream with
        | .str u => if strHasComma u then acc else acc ++ [u]
        | .list us =>
            if List.any us (fun u => u == ",") then acc
            else List.foldl
              (fun acc u => if strHasComma u then acc else acc ++ [u])
              acc us)
      acc sts,
    strHasComma u = false := by
  induction sts with
  | nil => intro acc hacc; simpa using hacc
  | cons st sts ih =>
      intro acc hacc
      simp only [List.foldl_cons]
      refine ih _ ?_
      cases st._stream with
      | str u => exact stepAcc_comma_free hacc
      | list us =>
          simp only []
          split
          · exact hacc
          · exact foldlAcc_comma_free us acc hacc

/-- Every URL whose size is measured is comma-free. -/
theorem measuredUrls_comma_free (medias : List Medium) :
    ∀ u ∈ measuredUrls medias, strHasComma u = false := by
  unfold measuredUrls
  suffices h : ∀ (ms : List Medium) (acc : List String),
      (∀ u ∈ acc, strHasComma u = false) →
      ∀ u ∈ List.foldl
        (fun acc medium =>
          List.foldl
            (fun acc stream =>
              match stream._stream with
              | .str u => if strHasComma u then acc else acc ++ [u]
              | .list us =>
                  if List.any us (fun u => u == ",") then acc
                  else List.foldl
                    (fun acc u => if strHasComma u then acc else acc ++ [u])
                    acc us)
            acc medium._mediaStreamArray) acc ms,
      strHasComma u = false by
    exact h medias [] (by simp)
  intro ms
  induction ms with
  | nil => intro acc hacc; simpa using hacc
  | cons m ms ih =>
      intro acc hacc
      simp only [List.foldl_cons]
      exact ih _ (streamsAcc_comma_free m._mediaStreamArray acc hacc)

/-- When some positive size was collected, the kept key list is nonempty. -/
theorem keptKeys_ne_nil {sizeOf : String → Int} {medias : List Medium}
    (h : List.filter (fun k => 0 < k) (dkeys (buildDict sizeOf medias)) ≠ []) :
    keptKeys sizeOf medias ≠ [] := by
  simp only [keptKeys]
  have hlen : (List.insertionSort (fun a b => a ≤ b)
      (List.filter (fun k => 0 < k) (dkeys (buildDict sizeOf medias)))).length =
      (List.filter (fun k => 0 < k) (dkeys (buildDict sizeOf medias))).length :=
    (List.perm_insertionSort _ _).length_eq
  have hpos : 0 < (List.insertionSort (fun a b => a ≤ b)
      (List.filter (fun k => 0 < k) (dkeys (buildDict sizeOf medias)))).length := by
    rw [hlen]
    exact List.length_pos.mpr h
  split
  · refine List.ne_nil_of_length_pos ?_
    rw [List.length_drop]
    omega
  · exact List.ne_nil_of_length_pos hpos

/-- Every kept key is a key of the `videos_by_size` dict. -/
theorem mem_dkeys_of_mem_keptKeys {sizeOf : String → Int}
    {medias : List Medium} {k : Int} (h : k ∈ keptKeys sizeOf medias) :
    k ∈ dkeys (buildDict sizeOf medias) := by
  simp only [keptKeys] at h
  have hmem : k ∈ List.insertionSort (fun a b => a ≤ b)
      (List.filter (fun k => 0 < k) (dkeys (buildDict sizeOf medias))) := by
    split at h
    · exact List.drop_subset _ _ h
    · exact h
  have hfil : k ∈ List.filter (fun k => 0 < k)
      (dkeys (buildDict sizeOf medias)) :=
    ((List.perm_insertionSort _ _).mem_iff).mp hmem
  exact (List.mem_filter.mp hfil).1

/-- `videos_by_size.get(k)` succeeds on every key of the dict. -/
theorem dget_some_of_mem_dkeys {d : Dict} {k : Int} (h : k ∈ dkeys d) :
    ∃ v, dget d k = some v := by
  induction d with
  | nil => simp [dkeys] at h
  | cons q d ih =>
      by_cases hk : q.1 == k
      · refine ⟨q.2, ?_⟩
        simp only [dget, List.find?_cons, hk]
        rfl
      · have hmem : k ∈ dkeys d := by
          simp only [dkeys, List.map_cons, List.mem_cons] at h
          rcases h with h | h
          · exact absurd (beq_iff_eq.mpr h.symm) (by simpa using hk)
          · simpa [dkeys] using h
        rcases ih hmem with ⟨v, hv⟩
        refine ⟨v, ?_⟩
        simp only [dget, List.find?_cons, hk]
        simpa [dget] using hv

/-! ### The claims -/

/-- C1 (counterexample): on a descriptor with exactly the two sizes 300 and
700, tier 2 maps to 700's URL, not to 300's URL as claimed: the mapping is
`[(1, u300), (2, u700), (3, u700)]` and differs from the claimed one. -/
theorem two_sizes_tier2_counterexample :
    _get_all_stream_urls_grouped_by_quality sizeOfTwo mediasTwo =
      .ok [(1, some "u300"), (2, some "u700"), (3, some "u700")] ∧
    _get_all_stream_urls_grouped_by_quality sizeOfTwo mediasTwo ≠
      .ok [(1, some "u300"), (2, some "u300"), (3, some "u700")] := by
  refine ⟨rfl, fun h => ?_⟩
  have h2 := (rfl : _get_all_stream_urls_grouped_by_quality sizeOfTwo mediasTwo =
    .ok [(1, some "u300"), (2, some "u700"), (3, some "u700")]).symm.trans h
  exact absurd (Except.ok.inj h2) (by decide)

/-- C1 (amended): with exactly the two distinct sizes 300 and 700, the kept
ascending key list is `[300, 700]`, the tier-2 index `len // 2 = 1` lands on
the larger size, and the tier mapping is `{1: 300's URL, 2: 700's URL,
3: 700's URL}`. -/
theorem two_sizes_tier_mapping :
    keptKeys sizeOfTwo mediasTwo = [300, 700] ∧
    (keptKeys sizeOfTwo mediasTwo).getD
      ((keptKeys sizeOfTwo mediasTwo).length / 2) 0 = 700 ∧
    _get_all_stream_urls_grouped_by_quality sizeOfTwo mediasTwo =
      .ok [(1, some "u300"), (2, some "u700"), (3, some "u700")] :=
  ⟨rfl, rfl, rfl⟩

/-- C2 (counterexample): a freshly constructed downloader has quality 3,
not the mid tier 2. -/
theorem default_quality_counterexample :
    Except.map quality (init "http://ab.de".data) = .ok 3 ∧
    Except.map quality (init "http://ab.de".data) ≠ .ok 2 := by
  refine ⟨rfl, fun h => ?_⟩
  have h2 := (rfl : Except.map quality (init "http://ab.de".data) =
    .ok 3).symm.trans h
  exact absurd (Except.ok.inj h2) (by decide)

/-- C2 (amended): every successfully constructed downloader starts with
quality tier 3, the largest of the three tiers. -/
theorem default_quality_is_three (url : List Char)
    (d : ArdMediathekDownloader) (h : init url = .ok d) : quality d = 3 := by
  unfold init at h
  split at h
  · cases h
  · cases h
    rfl

/-- Witness for the amended C2 theorem at a concrete constructor call. -/
theorem default_quality_is_three_witness :
    quality ⟨"http://ab.de".data, none, none, "video.mp4", false, 3⟩ = 3 :=
  default_quality_is_three "http://ab.de".data _ rfl

/-- C3 (counterexample): `"http://ab.de\n"` passes the syntax check, yet
the stored URL is `"http://ab.de"` — not character-for-character the
input. -/
theorem validate_url_newline_counterexample :
    validate_url "http://ab.de\n".data = .ok "http://ab.de".data ∧
    "http://ab.de".data ≠ "http://ab.de\n".data :=
  ⟨rfl, by decide⟩

/-- C3 (amended): a failing input raises `InvalidInput`; a passing input is
stored as the matched text, which is the input itself or, when the input
ends in a newline the regex matched up to, the input without that final
newline. -/
theorem validate_url_stored_text (s : List Char) :
    (pyMatchGroup0 s = none → validate_url s = .error .invalidInput) ∧
    ∀ m, pyMatchGroup0 s = some m →
      validate_url s = .ok m ∧
      (m = s ∨ (s.getLast? = some '\n' ∧ m = s.dropLast)) := by
  constructor
  · intro h; unfold validate_url; rw [h]
  · intro m hm
    constructor
    · unfold validate_url; rw [hm]
    · unfold pyMatchGroup0 at hm
      split_ifs at hm with h1 h2
      · left; exact (Option.some.inj hm).symm
      · right; exact ⟨h2.1, (Option.some.inj hm).symm⟩

/-- Witness for the amended C3 theorem at two concrete inputs. -/
theorem validate_url_stored_text_witness :
    validate_url "http://ab.de\n".data = .ok "http://ab.de".data ∧
    validate_url "notaurl".data = .error .invalidInput := by
  constructor
  · exact ((validate_url_stored_text "http://ab.de\n".data).2
      "http://ab.de".data rfl).1
  · exact (validate_url_stored_text "notaurl".data).1 rfl

/-- C4: with the four distinct sizes 100, 500, 2000, 9000, the kept sizes
are the three largest `[500, 2000, 9000]` and the tiers map 1 to 500's URL,
2 to 2000's URL and 3 to 9000's URL. -/
theorem four_sizes_keep_three_largest :
    keptKeys sizeOfFour mediasFour = [500, 2000, 9000] ∧
    _get_all_stream_urls_grouped_by_quality sizeOfFour mediasFour =
      .ok [(1, some "u500"), (2, some "u2000"), (3, some "u9000")] :=
  ⟨rfl, rfl⟩

/-- C5: a stream entry containing a comma — a string entry or a list
element — contributes neither a size measurement nor a URL: every URL whose
size is taken and every URL stored in `videos_by_size` is comma-free. -/
theorem comma_entries_excluded (sizeOf : String → Int)
    (medias : List Medium) :
    (∀ p ∈ buildDict sizeOf medias, strHasComma p.2 = false) ∧
    (∀ u ∈ measuredUrls medias, strHasComma u = false) :=
  ⟨buildDict_comma_free sizeOf medias, measuredUrls_comma_free medias⟩

/-- Witness for C5 on a descriptor that mixes comma sentinels with
well-formed URLs. -/
theorem comma_entries_excluded_witness :
    strHasComma "http://ok.de/v.mp4" = false ∧ strHasComma "u2" = false := by
  constructor
  · exact (comma_entries_excluded sizeOfComma mediasComma).1
      (7, "http://ok.de/v.mp4") (by decide)
  · exact (comma_entries_excluded sizeOfComma mediasComma).2 "u2" (by decide)

/-- C6: requesting quality 5 when the tier mapping has exactly the keys
1, 2, 3 fails with the not-found error carrying those available keys. -/
theorem quality_five_not_found :
    Except.map (fun t => List.map (fun p => p.1) t)
        (_get_all_stream_urls_grouped_by_quality sizeOfFive mediasFive) =
      .ok [1, 2, 3] ∧
    _get_video_by_quality 5 sizeOfFive mediasFive =
      .error (.qualityNotFound [1, 2, 3]) :=
  ⟨rfl, rfl⟩

/-- C7: whatever the JSON parser would do on the body, a response whose
content type does not contain `application/json` makes
`_get_media_json_by_document_id` fail with the protocol error — the body is
never parsed, since the result is the same for every `parse` oracle. -/
theorem non_json_response_protocol_error {J : Type}
    (parse : String → Option J) (r : HttpResponse)
    (h : listIsInfixOf "application/json".data r.contentType.data = false) :
    _get_media_json_by_document_id parse r = .error .protocolError := by
  unfold _get_media_json_by_document_id
  rw [h]
  rfl

/-- Witness for C7 on a `text/html` error page. -/
theorem non_json_response_protocol_error_witness :
    _get_media_json_by_document_id (fun _ => some ())
      ⟨"text/html", "error page"⟩ = .error .protocolError :=
  non_json_response_protocol_error (fun _ => some ())
    ⟨"text/html", "error page"⟩ (by decide)

/-- C8 (counterexample): with a recorded but empty subtitle URL the
subtitle fetch still fails with the no-subtitles error instead of writing a
file (Python truthiness of `if not self.subtitle_url`). -/
theorem empty_subtitle_url_counterexample :
    (SubtitleState.mk (some "") "video.mp4").subtitle_url ≠ none ∧
    get_subtitles (fun _ => "WEBVTT data")
      (SubtitleState.mk (some "") "video.mp4") = .error .noSubtitles :=
  ⟨by decide, rfl⟩

/-- C8 (amended): the subtitle fetch fails with the no-subtitles error when
no subtitle URL was recorded or the recorded URL is empty; with a nonempty
recorded URL it writes the fetched text verbatim to the output path with
its extension replaced by `.srt`. -/
theorem get_subtitles_spec (fetch : String → String) (st : SubtitleState) :
    ((st.subtitle_url = none ∨ st.subtitle_url = some "") →
      get_subtitles fetch st = .error .noSubtitles) ∧
    ∀ u, st.subtitle_url = some u → u ≠ "" →
      get_subtitles fetch st =
        .ok (splitextStem st.filename.data ++ ".srt".data, fetch u) := by
  constructor
  · intro h
    rcases h with h | h <;> simp [get_subtitles, h]
  · intro u hu hne
    simp [get_subtitles, hu, hne]

/-- Witness for the amended C8 theorem at a concrete state. -/
theorem get_subtitles_spec_witness :
    get_subtitles (fun _ => "WEBVTT data")
      ⟨some "http://sub.de/s", "video.mp4"⟩ =
      .ok ("video.srt".data, "WEBVTT data") :=
  (get_subtitles_spec (fun _ => "WEBVTT data")
    ⟨some "http://sub.de/s", "video.mp4"⟩).2 "http://sub.de/s" rfl (by decide)

/-- C9: whenever at least one positive size is collected, the grouped tier
dict is built without error and has exactly the keys 1, 2, 3, and every
quality request in 1, 2, 3 succeeds. -/
theorem positive_size_gives_full_tier_map (sizeOf : String → Int)
    (medias : List Medium)
    (h : List.filter (fun k => 0 < k) (dkeys (buildDict sizeOf medias)) ≠ []) :
    Except.map (fun t => List.map (fun p => p.1) t)
        (_get_all_stream_urls_grouped_by_quality sizeOf medias) =
      .ok [1, 2, 3] ∧
    ∀ q : Int, q = 1 ∨ q = 2 ∨ q = 3 →
      Except.isOk (_get_video_by_quality q sizeOf medias) = true := by
  have hne := keptKeys_ne_nil h
  rcases hk : keptKeys sizeOf medias with _ | ⟨k0, ks⟩
  · exact absurd hk hne
  · have hgroup : _get_all_stream_urls_grouped_by_quality sizeOf medias =
        .ok [(1, dget (buildDict sizeOf medias) k0),
             (2, dget (buildDict sizeOf medias)
                   ((k0 :: ks).get ⟨(k0 :: ks).length / 2,
                     Nat.div_lt_self (Nat.succ_pos ks.length) Nat.one_lt_two⟩)),
             (3, dget (buildDict sizeOf medias)
                   ((k0 :: ks).getLast (List.cons_ne_nil k0 ks)))] := by
      simp only [_get_all_stream_urls_grouped_by_quality]
      rw [hk]
    have h0 : k0 ∈ keptKeys sizeOf medias := by
      rw [hk]; exact List.mem_cons_self k0 ks
    have hmid : (k0 :: ks).get ⟨(k0 :: ks).length / 2,
        Nat.div_lt_self (Nat.succ_pos ks.length) Nat.one_lt_two⟩ ∈
        keptKeys sizeOf medias := by
      rw [hk]; exact List.get_mem _ _ _
    have hlast : (k0 :: ks).getLast (List.cons_ne_nil k0 ks) ∈
        keptKeys sizeOf medias := by
      rw [hk]; exact List.getLast_mem _
    obtain ⟨v1, hv1⟩ := dget_some_of_mem_dkeys (mem_dkeys_of_mem_keptKeys h0)
    obtain ⟨v2, hv2⟩ := dget_some_of_mem_dkeys (mem_dkeys_of_mem_keptKeys hmid)
    obtain ⟨v3, hv3⟩ := dget_some_of_mem_dkeys (mem_dkeys_of_mem_keptKeys hlast)
    constructor
    · rw [hgroup]; rfl
    · intro q hq
      rcases hq with h' | h' | h' <;> subst h' <;>
        · unfold _get_video_by_quality
          rw [hgroup, hv1, hv2, hv3]
          rfl

/-- Witness for C9 on a one-stream descriptor. -/
theorem positive_size_gives_full_tier_map_witness :
    Except.isOk (_get_video_by_quality 2 sizeOfOne mediasOne) = true ∧
    Except.map (fun t => List.map (fun p => p.1) t)
        (_get_all_stream_urls_grouped_by_quality sizeOfOne mediasOne) =
      .ok [1, 2, 3] := by
  have h := positive_size_gives_full_tier_map sizeOfOne mediasOne (by decide)
  exact ⟨h.2 2 (Or.inr (Or.inl rfl)), h.1⟩

/-- C10: `fix_url` always yields a URL starting with `http:` or `https:`,
is idempotent, and leaves inputs already carrying one of those schemes
unchanged. -/
theorem fix_url_spec (u : List Char) :
    ("http:".data.isPrefixOf (fix_url u) = true ∨
      "https:".data.isPrefixOf (fix_url u) = true) ∧
    fix_url (fix_url u) = fix_url u ∧
    (("http:".data.isPrefixOf u = true ∨ "https:".data.isPrefixOf u = true) →
      fix_url u = u) := by
  by_cases h1 : "http:".data.isPrefixOf u
  · have he : fix_url u = u := by simp [fix_url, h1]
    refine ⟨Or.inl (by rw [he]; exact h1), ?_, fun _ => he⟩
    rw [he, he]
  · by_cases h2 : "https:".data.isPrefixOf u
    · have he : fix_url u = u := by simp [fix_url, h2]
      refine ⟨Or.inr (by rw [he]; exact h2), ?_, fun _ => he⟩
      rw [he, he]
    · have he : fix_url u = "http:".data ++ u := by simp [fix_url, h1, h2]
      have hp : "http:".data.isPrefixOf ("http:".data ++ u) = true :=
        List.isPrefixOf_iff_prefix.mpr (List.prefix_append _ _)
      refine ⟨Or.inl (by rw [he]; exact hp), ?_, fun hc => ?_⟩
      · rw [he]
        have : fix_url ("http:".data ++ u) = "http:".data ++ u := by
          simp [fix_url, hp]
        rw [this]
      · rcases hc with hc | hc
        · exact absurd hc h1
        · exact absurd hc h2

/-- Witness for C10 on an input already carrying the `http:` scheme. -/
theorem fix_url_spec_witness :
    fix_url "http://a.de/v".data = "http://a.de/v".data :=
  (fix_url_spec "http://a.de/v".data).2.2 (Or.inl (by decide))

end Ard
